import Mathlib

/-!
Verification of the vinyl backend aggregation engine (src/server.js).

The JavaScript source is shallowly embedded below.  Conventions:

* JS strings are Lean `String`s; the string operations the code uses
  (`includes`, `toLowerCase`, `split`, `trim`) are re-implemented
  structurally over `String.data` (lists of characters) so that they
  evaluate by kernel reduction.
* JS `undefined` / `null` are both `Option.none`; a missing optional field
  of an upstream record is `none`.
* JS numbers are idealized as rationals `ℚ` (timestamps as `Int`
  milliseconds); the special values `Infinity`, `-Infinity` and `NaN`,
  which matter for the recommendation scorer's unguarded division, are
  modelled explicitly by the type `JNum`.
* Mutable state (the cache `Map`) is explicit state passing; `Date.now()`
  is an explicit `now` parameter.
* `async` fan-out loops over upstream fetches are given the per-query
  outcomes as a list of `Except` values: `.ok` is a fetch that resolved,
  `.error` one that threw.  A route body that can throw returns `Except`.
-/

namespace VinylBackend

/-! ## JS string primitives (structural re-implementations) -/

/-- Does the first character list start with the second one? -/
def charsStartWith : List Char → List Char → Bool
  | _, [] => true
  | [], _ :: _ => false
  | a :: as, b :: bs => a == b && charsStartWith as bs

/-- JS `hay.includes(pat)`: `pat` occurs as a contiguous substring of `hay`. -/
def charsIncludes : List Char → List Char → Bool
  | [], pat => pat.isEmpty
  | a :: t, pat => charsStartWith (a :: t) pat || charsIncludes t pat

/-- JS `s.includes(pat)` on strings. -/
def jsIncludes (s pat : String) : Bool :=
  charsIncludes s.data pat.data

/-- JS `s.toLowerCase()` (ASCII case folding). -/
def jsToLower (s : String) : String :=
  String.mk (s.data.map Char.toLower)

/-- JS `s.trim()`. -/
def jsTrim (s : String) : String :=
  String.mk (((s.data.dropWhile Char.isWhitespace).reverse.dropWhile Char.isWhitespace).reverse)

/-- JS `s.split("-")[0]`: the text before the first hyphen (the whole
string when it has no hyphen). -/
def beforeFirstHyphen (s : String) : String :=
  String.mk (s.data.takeWhile (fun c => c != '-'))

/-- Splitting a character list at whitespace, used for the word lists of
the recommendation scorer (JS `split(/\s+/)`; runs of whitespace produce
empty tokens here, which the scorer's length filter discards anyway). -/
def splitWsAux : List Char → List Char → List String
  | [], acc => [String.mk acc.reverse]
  | c :: t, acc =>
    if c.isWhitespace then String.mk acc.reverse :: splitWsAux t []
    else splitWsAux t (c :: acc)

/-- JS `s.split(/\s+/)` modulo empty tokens. -/
def splitWs (s : String) : List String :=
  splitWsAux s.data []

/-- A JS string used in boolean position: `""`, `null` and `undefined` are
falsy.  `strTruthy x` is `some s` exactly when `x` is a truthy string, so
`a || b || null` on strings is `(strTruthy a).orElse (fun _ => strTruthy b)`. -/
def strTruthy : Option String → Option String
  | some s => if s = "" then none else some s
  | none => none

/-- JS `a || b || null` on (possibly missing) strings. -/
def jsOrStr (a b : Option String) : Option String :=
  match strTruthy a with
  | some s => some s
  | none => strTruthy b

/-! ## Result cache (src/server.js lines 84–96)

`cacheStore` is a JS `Map`; it is modelled as an association list in which
`setCache` replaces any previous binding of the key.  `Date.now()` is the
explicit `now` argument; `getCache` returns the looked-up value together
with the possibly shrunk store (lazy eviction deletes the entry). -/

structure CacheEntry (V : Type) where
  val : V
  exp : Int
deriving DecidableEq

def CacheStore (V : Type) : Type := List (String × CacheEntry V)

/-- JS `Map.delete key` on the association-list model. -/
def removeKey {V : Type} (key : String) (s : CacheStore V) : CacheStore V :=
  List.filter (fun p => p.1 != key) s

/-- Source: `function setCache(key, val, ttlMs) { cacheStore.set(key, { val, exp: Date.now() + ttlMs }); }` -/
def setCache {V : Type} (now : Int) (s : CacheStore V) (key : String) (v : V)
    (ttlMs : Int) : CacheStore V :=
  (key, { val := v, exp := now + ttlMs }) :: removeKey key s

/-- Source: `function getCache(key)` — absent gives `null`; an entry with
`Date.now() > c.exp` is deleted and `null` is returned; otherwise `c.val`. -/
def getCache {V : Type} (now : Int) (s : CacheStore V) (key : String) :
    Option V × CacheStore V :=
  match List.lookup key s with
  | none => (none, s)
  | some c => if c.exp < now then (none, removeKey key s) else (some c.val, s)

/-! ## Vinyl filtering (src/server.js lines 101–128) -/

def BLOCK_WORDS : List String :=
  ["poster", "print", "tshirt", "shirt", "hoodie", "jacket", "sticker",
   "figure", "funko", "toy", "magnet", "patch", "keychain",
   "canvas", "digital", "template", "pdf", "ebook", "bundle",
   "frame", "painting", "lamp", "furniture", "case", "phone", "iphone"]

/-- The allow-list keywords of `isVinyl`, written in the source as an
explicit disjunction of `t.includes(...)` calls. -/
def ALLOW_WORDS : List String :=
  ["vinyl", "lp", "record", "album", "cassette", "tape", "cd",
   "compact disc", "limited edition", "first press", "remaster"]

structure PriceObj where
  value : Option ℚ
deriving DecidableEq

structure ImageObj where
  imageUrl : Option String
deriving DecidableEq

/-- An eBay Browse API item summary, restricted to the fields the code
reads.  Every field can be missing. -/
structure RawItem where
  itemId : Option String
  title : Option String
  brand : Option String
  price : Option PriceObj
  thumbnailImages : Option (List ImageObj)
  image : Option ImageObj
  itemWebUrl : Option String
  condition : Option String
deriving DecidableEq

/-- Source: `function isVinyl(item)`.  `!item?.title` rejects a missing or
empty title; any block word as a substring of the lower-cased title
rejects; otherwise the item passes iff some allow keyword occurs. -/
def isVinyl (item : RawItem) : Bool :=
  match item.title with
  | none => false
  | some title =>
    if title = "" then false
    else
      let t := jsToLower title
      if BLOCK_WORDS.any (fun w => jsIncludes t w) then false
      else
        jsIncludes t "vinyl" ||
        jsIncludes t "lp" ||
        jsIncludes t "record" ||
        jsIncludes t "album" ||
        jsIncludes t "cassette" ||
        jsIncludes t "tape" ||
        jsIncludes t "cd" ||
        jsIncludes t "compact disc" ||
        jsIncludes t "limited edition" ||
        jsIncludes t "first press" ||
        jsIncludes t "remaster"

/-! ## Normalizer (src/server.js lines 133–146) -/

structure CanonicalItem where
  itemId : Option String
  title : Option String
  artist : Option String
  price : Option PriceObj
  image : Option String
  url : Option String
  condition : Option String
deriving DecidableEq

/-- JS `item.title?.split("-")[0]?.trim()` for a present title. -/
def preHyphen (t : String) : String :=
  jsTrim (beforeFirstHyphen t)

/-- Source: `function normalizeVinyl(item)`.  `price` is an object, hence
truthy whenever present, so `item.price || null` is `item.price`; the
string fallback chains use `jsOrStr` / `strTruthy` for JS `||`. -/
def normalizeVinyl (item : RawItem) : CanonicalItem :=
  { itemId := item.itemId
    title := item.title
    artist := jsOrStr item.brand (item.title.map preHyphen)
    price := item.price
    image := jsOrStr ((item.thumbnailImages.bind List.head?).bind ImageObj.imageUrl)
                     (item.image.bind ImageObj.imageUrl)
    url := item.itemWebUrl
    condition := strTruthy item.condition }

/-! ## Trending fan-out (src/server.js lines 208–220)

The loop body `found.push(...(json.itemSummaries || []).filter(isVinyl))`
sits inside a per-query `try`/`catch`, so a rejected `ebaySearch` only
skips that query.  Each query's outcome is an `Except`: `.ok items` is a
response (its `itemSummaries`), `.error` a throw. -/

/-- One iteration of the trending query loop: a resolved query appends its
vinyl-filtered item summaries to the accumulator `found`; a rejected one
is logged and leaves it unchanged. -/
def trendStep (acc : List RawItem) (r : Except String (List RawItem)) : List RawItem :=
  match r with
  | Except.ok items => acc ++ items.filter isVinyl
  | Except.error _ => acc

def trendingFound (results : List (Except String (List RawItem))) : List RawItem :=
  results.foldl trendStep []

/-- What one query outcome contributes to the trending aggregation. -/
def trendGain : Except String (List RawItem) → List RawItem
  | Except.ok items => items.filter isVinyl
  | Except.error _ => []

/-! ## Recommendation scorer (src/server.js lines 348–445)

JS number semantics matter here: the price-similarity term divides by
`basePrice` without a guard, so `Infinity` and `NaN` can arise.  `JNum`
models an IEEE-754 double as either an (idealized, exact) finite rational
or one of the special values; the operations below follow IEEE-754 special
value propagation, which is independent of rounding. -/

inductive JNum where
  | fin : ℚ → JNum
  | posInf : JNum
  | negInf : JNum
  | nan : JNum
deriving DecidableEq

def jneg : JNum → JNum
  | JNum.fin a => JNum.fin (-a)
  | JNum.posInf => JNum.negInf
  | JNum.negInf => JNum.posInf
  | JNum.nan => JNum.nan

def jadd : JNum → JNum → JNum
  | JNum.nan, _ => JNum.nan
  | _, JNum.nan => JNum.nan
  | JNum.fin a, JNum.fin b => JNum.fin (a + b)
  | JNum.posInf, JNum.negInf => JNum.nan
  | JNum.negInf, JNum.posInf => JNum.nan
  | JNum.posInf, _ => JNum.posInf
  | _, JNum.posInf => JNum.posInf
  | JNum.negInf, _ => JNum.negInf
  | _, JNum.negInf => JNum.negInf

def jsub (a b : JNum) : JNum := jadd a (jneg b)

def jmul : JNum → JNum → JNum
  | JNum.nan, _ => JNum.nan
  | _, JNum.nan => JNum.nan
  | JNum.fin a, JNum.fin b => JNum.fin (a * b)
  | JNum.posInf, JNum.fin b =>
    if b = 0 then JNum.nan else if 0 < b then JNum.posInf else JNum.negInf
  | JNum.fin a, JNum.posInf =>
    if a = 0 then JNum.nan else if 0 < a then JNum.posInf else JNum.negInf
  | JNum.negInf, JNum.fin b =>
    if b = 0 then JNum.nan else if 0 < b then JNum.negInf else JNum.posInf
  | JNum.fin a, JNum.negInf =>
    if a = 0 then JNum.nan else if 0 < a then JNum.negInf else JNum.posInf
  | JNum.posInf, JNum.posInf => JNum.posInf
  | JNum.negInf, JNum.negInf => JNum.posInf
  | JNum.posInf, JNum.negInf => JNum.negInf
  | JNum.negInf, JNum.posInf => JNum.negInf

/-- JS division; `x / 0` is `NaN` for `x = 0` and a signed infinity
otherwise (signed zeros are not modelled; no claim depends on them). -/
def jdiv : JNum → JNum → JNum
  | JNum.nan, _ => JNum.nan
  | _, JNum.nan => JNum.nan
  | JNum.fin a, JNum.fin b =>
    if b = 0 then (if a = 0 then JNum.nan else if 0 < a then JNum.posInf else JNum.negInf)
    else JNum.fin (a / b)
  | JNum.posInf, JNum.fin b => if 0 ≤ b then JNum.posInf else JNum.negInf
  | JNum.negInf, JNum.fin b => if 0 ≤ b then JNum.negInf else JNum.posInf
  | JNum.fin _, JNum.posInf => JNum.fin 0
  | JNum.fin _, JNum.negInf => JNum.fin 0
  | _, _ => JNum.nan

/-- JS `Math.max`: any `NaN` argument gives `NaN`. -/
def jmax : JNum → JNum → JNum
  | JNum.nan, _ => JNum.nan
  | _, JNum.nan => JNum.nan
  | JNum.fin a, JNum.fin b => JNum.fin (max a b)
  | JNum.posInf, _ => JNum.posInf
  | _, JNum.posInf => JNum.posInf
  | JNum.negInf, x => x
  | x, JNum.negInf => x

/-- Rounding to two decimals, JS `Number(x.toFixed(2))` (ties are not
exercised by any claim). -/
def round2 (q : ℚ) : ℚ := (round (q * 100) : ℤ) / 100

/-- JS `Number(score.toFixed(2))`: `(NaN).toFixed(2)` is `"NaN"` and
`Number("NaN")` is `NaN`; infinities likewise pass through. -/
def jround2 : JNum → JNum
  | JNum.fin q => JNum.fin (round2 q)
  | JNum.posInf => JNum.posInf
  | JNum.negInf => JNum.negInf
  | JNum.nan => JNum.nan

/-- Source: `baseArtist && n.artist && n.artist.toLowerCase() === baseArtist.toLowerCase()`. -/
def artistMatch (baseArtist : String) (candArtist : Option String) : Bool :=
  baseArtist != "" &&
    (match candArtist with
     | some a => a != "" && jsToLower a == jsToLower baseArtist
     | none => false)

/-- Source lines 393–396: `baseTitle.toLowerCase().split(/\s+/).filter(w => w.length > 2)`. -/
def baseWordsOf (baseTitle : String) : List String :=
  (splitWs (jsToLower baseTitle)).filter (fun w => 2 < w.length)

/-- Source lines 415–419: the number of base words contained in the
candidate's word list. -/
def overlapCount (baseWords words : List String) : ℕ :=
  (baseWords.filter (fun w => words.contains w)).length

/-- Source line 413: `Math.max(0, 15 - (diff / basePrice) * 20)` where
`diff = Math.abs(priceVal - basePrice)`.  Both prices come from
`Number(... || 0)` and are finite. -/
def priceSimTerm (priceVal basePrice : ℚ) : JNum :=
  jmax (JNum.fin 0)
    (jsub (JNum.fin 15)
      (jmul (jdiv (JNum.fin |priceVal - basePrice|) (JNum.fin basePrice)) (JNum.fin 20)))

/-- Source lines 398–427: the per-candidate recommendation score.  `n` is
the normalized candidate (its title is a nonempty string because the
candidate passed `isVinyl`), `priceVal` is `Number(it.price?.value || 0)`,
and `jitter` is the sampled `Math.random() * 3`.  The returned value is
`Number(score.toFixed(2))`, the item's `recommend_score`. -/
def recommendScore (baseArtist : String) (basePrice : ℚ) (baseWords : List String)
    (n : CanonicalItem) (priceVal : ℚ) (jitter : ℚ) : JNum :=
  let s1 : JNum :=
    if artistMatch baseArtist n.artist then jadd (JNum.fin 0) (JNum.fin 20) else JNum.fin 0
  let s2 : JNum := jadd s1 (priceSimTerm priceVal basePrice)
  let words : List String := splitWs (jsToLower (n.title.getD ""))
  let s3 : JNum := jadd s2 (JNum.fin ((overlapCount baseWords words : ℕ) * 2))
  jround2 (jadd s3 (JNum.fin jitter))

/-! ## Price history (src/server.js lines 450–520)

The eBay Finding API wraps every field in a singleton array; the
structures keep those lists and the `?.[0]?` chains become
`List.head?`-`Option.bind` chains.  `__value__` carries a decimal string,
read with `Number(...)`; it is modelled as the rational it denotes. -/

structure PriceAmount where
  value : Option ℚ
deriving DecidableEq

structure SellingStatus where
  sellingState : List String
  currentPrice : List PriceAmount
deriving DecidableEq

structure CondObj where
  conditionDisplayName : List String
deriving DecidableEq

structure ListingInfo where
  endTime : List String
deriving DecidableEq

structure FindingItem where
  title : List String
  sellingStatus : List SellingStatus
  viewItemURL : List String
  galleryURL : List String
  condition : List CondObj
  listingInfo : List ListingInfo
deriving DecidableEq

/-- JS `i.sellingStatus?.[0]?.sellingState?.[0]`. -/
def sellingStateOf (i : FindingItem) : Option String :=
  i.sellingStatus.head?.bind (fun s => s.sellingState.head?)

/-- JS `Number(i.sellingStatus?.[0]?.currentPrice?.[0]?.__value__ || 0)`. -/
def priceOf (i : FindingItem) : ℚ :=
  ((i.sellingStatus.head?.bind (fun s => s.currentPrice.head?)).bind PriceAmount.value).getD 0

/-- JS `i.listingInfo?.[0]?.endTime?.[0]`. -/
def endTimeOf (i : FindingItem) : Option String :=
  i.listingInfo.head?.bind (fun l => l.endTime.head?)

structure SoldItem where
  title : String
  price : ℚ
  url : String
  image : Option String
  condition : String
  endDate : Option String
deriving DecidableEq

/-- Source lines 475–487: the per-record projection of a completed sale. -/
def toSoldItem (i : FindingItem) : SoldItem :=
  { title := i.title.head?.getD ""
    price := priceOf i
    url := i.viewItemURL.head?.getD ""
    image := strTruthy i.galleryURL.head?
    condition := (strTruthy ((i.condition.head?.bind (fun c => c.conditionDisplayName.head?)))).getD "Unknown"
    endDate := strTruthy (endTimeOf i) }

/-- The `/price-history` JSON payload; the aggregate fields are `none`
exactly when the corresponding key is absent from the response. -/
structure HistoryResponse where
  query : String
  total_sold : ℕ
  average_price : Option ℚ
  lowest_price : Option ℚ
  highest_price : Option ℚ
  median_price : Option ℚ
  items : List SoldItem
deriving DecidableEq

/-- JS `prices.sort((a, b) => a - b)`: ascending numeric sort. -/
def sortedPrices (l : List ℚ) : List ℚ :=
  List.insertionSort (· ≤ ·) l

/-- Source lines 500–505, over the already sorted price array `s`:
the two central values averaged for even length, the single central value
for odd length. -/
def medianOf (s : List ℚ) : ℚ :=
  if s.length % 2 = 0 then (s.getD (s.length / 2 - 1) 0 + s.getD (s.length / 2) 0) / 2
  else s.getD (s.length / 2) 0

/-- Source lines 470–515: the `/price-history` aggregation over the raw
upstream item array (everything after the fetch itself). -/
def priceHistory (q : String) (items : List FindingItem) : HistoryResponse :=
  let soldItems :=
    (items.filter (fun i => sellingStateOf i == some "EndedWithSales")).map toSoldItem
  if soldItems.isEmpty then
    { query := q, total_sold := 0, average_price := none, lowest_price := none,
      highest_price := none, median_price := none, items := [] }
  else
    let prices := sortedPrices (soldItems.map SoldItem.price)
    let avg : ℚ := prices.sum / (prices.length : ℚ)
    { query := q
      total_sold := soldItems.length
      average_price := some (round2 avg)
      lowest_price := some (prices.head?.getD 0)
      highest_price := some (prices.getLast?.getD 0)
      median_price := some (medianOf prices)
      items := soldItems }

/-! ## Chart data (src/server.js lines 525–632)

`fetchSold` keeps the completed sales of one query variant as
`{ price, date: new Date(endTime) }` records.  A missing `endTime`
(`new Date(undefined)`) or an unparseable one gives an Invalid Date, whose
time value is `NaN`; `date : Option Int` is `none` exactly in that case.
Calling `toISOString()` on an Invalid Date throws a `RangeError`, so the
deduplication pass is fallible. -/

structure SoldRec where
  price : ℚ
  date : Option Int
deriving DecidableEq

/-- JS `new Date(x)` for `x` the optional `endTime` string: absent input
gives an Invalid Date; otherwise the engine's date parser (`parse`, kept
abstract) either yields a timestamp or an Invalid Date. -/
def jsNewDate (parse : String → Option Int) : Option String → Option Int
  | none => none
  | some s => parse s

/-- Source lines 545–574: the record list produced by `fetchSold` for one
variant's upstream item array. -/
def fetchSoldRecs (parse : String → Option Int) (items : List FindingItem) : List SoldRec :=
  (items.filter (fun i => sellingStateOf i == some "EndedWithSales")).map
    (fun i => { price := priceOf i, date := jsNewDate parse (endTimeOf i) })

/-- Source lines 576–580: the sequential variant loop.  It has no
`try`/`catch`, so the first rejected fetch aborts the whole route (the
`do`-chain propagates the error); successful results are concatenated. -/
def chartCombined : List (Except String (List SoldRec)) → Except String (List SoldRec)
  | [] => Except.ok []
  | r :: rs =>
    match r with
    | Except.error e => Except.error e
    | Except.ok sold =>
      match chartCombined rs with
      | Except.error e => Except.error e
      | Except.ok rest => Except.ok (sold ++ rest)

/-- The deduplication key `item.date.toISOString() + "-" + item.price`,
as the pair it encodes (`toISOString` throws on an Invalid Date, handled
in `dedupGo`). -/
def keyOf (r : SoldRec) : Option Int × ℚ := (r.date, r.price)

/-- Source lines 582–587: `combined.forEach(...)` building the first-seen
dedup map, with the key computation throwing on an Invalid Date. -/
def dedupGo : List SoldRec → List (Int × ℚ) → Except String (List SoldRec)
  | [], _ => Except.ok []
  | r :: rs, seen =>
    match r.date with
    | none => Except.error "Invalid time value"
    | some d =>
      if (d, r.price) ∈ seen then dedupGo rs seen
      else (dedupGo rs ((d, r.price) :: seen)).map (fun rest => r :: rest)

/-- The date actually compared by `combined.sort((a, b) => b.date - a.date)`
(all dates are valid once `dedupGo` has succeeded). -/
def dateVal (r : SoldRec) : Int := r.date.getD 0

/-- Descending-by-date comparison for the sort on line 589. -/
def sortRel (a b : SoldRec) : Prop := dateVal b ≤ dateVal a

instance : DecidableRel sortRel := fun a b => Int.decLe (dateVal b) (dateVal a)

instance : IsTotal SoldRec sortRel :=
  ⟨fun a b => le_total (dateVal b) (dateVal a)⟩

instance : IsTrans SoldRec sortRel :=
  ⟨fun _ _ _ h1 h2 => le_trans h2 h1⟩

def sortSold (l : List SoldRec) : List SoldRec :=
  List.insertionSort sortRel l

structure Summary where
  count : ℕ
  average : ℚ
  lowest : ℚ
  highest : ℚ
deriving DecidableEq

/-- Source lines 605–614: `makeSummary` (`Math.min(...prices)` and
`Math.max(...prices)` fold over the array). -/
def makeSummary : List ℚ → Option Summary
  | [] => none
  | p :: ps =>
    some { count := (p :: ps).length
           average := round2 ((p :: ps).sum / ((p :: ps).length : ℚ))
           lowest := ps.foldl min p
           highest := ps.foldl max p }

def msPerDay : Int := 86400000

/-- Source line 600: `daysAgo = d => new Date(now.getTime() - d * 86400000)`. -/
def daysAgo (now : Int) (d : Int) : Int := now - d * msPerDay

/-- Source lines 602–603: the prices of the records within the last
`days` days, filtered from the same combined record set each time. -/
def rangeData (now : Int) (combined : List SoldRec) (days : Int) : List ℚ :=
  (combined.filter (fun i => decide (daysAgo now days ≤ dateVal i))).map SoldRec.price

/-- The `/chart-data` payload shape: the empty-input early return on lines
591–597, or the populated response with the three window summaries. -/
inductive ChartResult where
  | empty : ChartResult
  | data : ℕ → Option Summary → Option Summary → Option Summary → ChartResult
deriving DecidableEq

/-- Source lines 582–627: everything after the variant fetches — dedup,
sort, empty-case early return, and the three rolling-window summaries. -/
def chartData (now : Int) (combined0 : List SoldRec) : Except String ChartResult :=
  (dedupGo combined0 []).map (fun deduped =>
    let combined := sortSold deduped
    if combined.isEmpty then ChartResult.empty
    else
      ChartResult.data combined.length
        (makeSummary (rangeData now combined 30))
        (makeSummary (rangeData now combined 60))
        (makeSummary (rangeData now combined 90)))

/-- The chart-data windowing example of the spec: sold records at
day-offsets 5, 35, 65 and 95 before `now = 0`, with prices 10, 20, 30, 40. -/
def chartExample : List SoldRec :=
  [{ price := 10, date := some ((-5) * msPerDay) },
   { price := 20, date := some ((-35) * msPerDay) },
   { price := 30, date := some ((-65) * msPerDay) },
   { price := 40, date := some ((-95) * msPerDay) }]

/-- A raw item whose dedup key (`keyOf`) is already among the keys `seen`
by the dedup pass. -/
def keyMem (k : Option Int × ℚ) (seen : List (Int × ℚ)) : Bool :=
  match k.1 with
  | none => false
  | some d => decide ((d, k.2) ∈ seen)

/-- A completed-listing record that did not end with a sale; witness input
for the empty price-history case. -/
def notSoldItem : FindingItem :=
  { title := ["Abba Vinyl"]
    sellingStatus := [{ sellingState := ["EndedWithoutSales"], currentPrice := [] }]
    viewItemURL := []
    galleryURL := []
    condition := []
    listingInfo := [] }

/-- A raw item without a brand whose title has a hyphen; witness input for
the normalizer's artist fallback. -/
def hyphenTitleItem : RawItem :=
  { itemId := none, title := some "Pink Floyd - The Wall", brand := none,
    price := none, thumbnailImages := none, image := none, itemWebUrl := none,
    condition := none }

/-- A normalized candidate whose resolved price is 0, as produced for a
priceless search hit; input of the NaN-score computation. -/
def zeroPriceCand : CanonicalItem :=
  { itemId := none, title := some "abba vinyl", artist := none, price := none,
    image := none, url := none, condition := none }

/-! ## Theorems -/

/-- Computation rule for `isVinyl`: the explicit 11-way disjunction of the
source is `List.any` over `ALLOW_WORDS`, and the falsy-empty-title branch
is subsumed (no keyword occurs in an empty title). -/
theorem isVinyl_eq_check (item : RawItem) :
    isVinyl item =
      match item.title with
      | none => false
      | some t =>
        !(BLOCK_WORDS.any (fun w => jsIncludes (jsToLower t) w)) &&
          ALLOW_WORDS.any (fun w => jsIncludes (jsToLower t) w) := by
  cases htitle : item.title with
  | none => simp [isVinyl, htitle]
  | some t =>
    by_cases hemp : t = ""
    · subst hemp
      simp only [isVinyl, htitle]
      decide
    · simp only [isVinyl, htitle, if_neg hemp]
      by_cases hblock : BLOCK_WORDS.any (fun w => jsIncludes (jsToLower t) w) = true
      · simp [hblock]
      · have hb : BLOCK_WORDS.any (fun w => jsIncludes (jsToLower t) w) = false := by
          simpa using hblock
        rw [if_neg hblock, hb]
        simp [ALLOW_WORDS, Bool.or_assoc]

/-- C3: an item with no title is never relevant; otherwise `isVinyl` is
true exactly when the lower-cased title contains no block-list keyword and
at least one allow-list keyword — so any block keyword forces false
regardless of allow keywords, and neither kind of keyword gives false. -/
theorem isVinyl_spec (item : RawItem) :
    (item.title = none → isVinyl item = false) ∧
    (isVinyl item = true ↔
      ∃ t, item.title = some t ∧
        (∀ w ∈ BLOCK_WORDS, jsIncludes (jsToLower t) w = false) ∧
        (∃ w ∈ ALLOW_WORDS, jsIncludes (jsToLower t) w = true)) := by
  constructor
  · intro h; simp [isVinyl, h]
  · rw [isVinyl_eq_check]
    cases htitle : item.title with
    | none => simp
    | some t =>
      simp only [Bool.and_eq_true, Bool.not_eq_true', Option.some.injEq]
      rw [List.any_eq_false, List.any_eq_true]
      constructor
      · rintro ⟨hb, ha⟩
        exact ⟨t, rfl, fun w hw => by simpa using hb w hw, by simpa using ha⟩
      · rintro ⟨t2, ht2, hb, ha⟩
        cases ht2
        exact ⟨fun w hw => by simpa using hb w hw, by simpa using ha⟩

/-- C3 witness: a titleless item is irrelevant, and "Pink Floyd Vinyl LP"
is relevant (no block keyword, allow keyword "vinyl" present). -/
theorem isVinyl_spec_witness :
    isVinyl { itemId := none, title := none, brand := none, price := none,
              thumbnailImages := none, image := none, itemWebUrl := none,
              condition := none } = false ∧
    isVinyl { itemId := none, title := some "Pink Floyd Vinyl LP", brand := none,
              price := none, thumbnailImages := none, image := none,
              itemWebUrl := none, condition := none } = true := by
  constructor
  · exact (isVinyl_spec _).1 rfl
  · exact (isVinyl_spec _).2.mpr
      ⟨"Pink Floyd Vinyl LP", rfl, by decide, "vinyl", by decide, by decide⟩

/-- C10: keyword matching is raw substring containment on the lower-cased
title, not whole-word matching: "Help!" is accepted because "lp" occurs
inside "help!", and "Saxophone Vinyl" is rejected because the block word
"phone" occurs inside "saxophone" even though "vinyl" is present. -/
theorem isVinyl_substring_spec :
    isVinyl { itemId := none, title := some "Help!", brand := none, price := none,
              thumbnailImages := none, image := none, itemWebUrl := none,
              condition := none } = true ∧
    isVinyl { itemId := none, title := some "Saxophone Vinyl", brand := none,
              price := none, thumbnailImages := none, image := none,
              itemWebUrl := none, condition := none } = false := by
  constructor <;> decide

/-- C5: a `set` immediately followed by `get` of the same key returns the
stored value for any positive TTL; a lookup finding an entry whose expiry
lies strictly in the past deletes it and returns absent; and whenever
`get` does return a value, the entry it came from has not yet expired. -/
theorem cache_spec {V : Type} :
    (∀ (s : CacheStore V) (key : String) (v : V) (ttl now : Int), 0 < ttl →
      (getCache now (setCache now s key v ttl) key).1 = some v) ∧
    (∀ (s : CacheStore V) (key : String) (now : Int) (c : CacheEntry V),
      List.lookup key s = some c → c.exp < now →
      getCache now s key = (none, removeKey key s)) ∧
    (∀ (s : CacheStore V) (key : String) (now : Int) (v : V),
      (getCache now s key).1 = some v →
      ∃ c, List.lookup key s = some c ∧ c.val = v ∧ now ≤ c.exp) := by
  refine ⟨?_, ?_, ?_⟩
  · intro s key v ttl now h
    have hl : List.lookup key (setCache now s key v ttl) =
        some { val := v, exp := now + ttl } := by
      simp [setCache, List.lookup]
    simp only [getCache, hl]
    rw [if_neg (by omega)]
  · intro s key now c hl hexp
    simp only [getCache, hl]
    rw [if_pos hexp]
  · intro s key now v h
    cases hl : List.lookup key s with
    | none => simp [getCache, hl] at h
    | some c =>
      by_cases hexp : c.exp < now
      · simp [getCache, hl, hexp] at h
      · simp [getCache, hl, hexp] at h
        exact ⟨c, rfl, h, by omega⟩

/-- C5 witness: set-then-get returns the value; an expired entry is
evicted; a returned value comes from an unexpired entry. -/
theorem cache_spec_witness :
    (getCache 0 (setCache 0 ([] : CacheStore ℕ) "k" 7 1000) "k").1 = some 7 ∧
    getCache 2000 [("k", ({ val := 7, exp := 1000 } : CacheEntry ℕ))] "k" =
      (none, removeKey "k" [("k", ({ val := 7, exp := 1000 } : CacheEntry ℕ))]) ∧
    ∃ c, List.lookup "k" [("k", ({ val := 7, exp := 1500 } : CacheEntry ℕ))] = some c ∧
      c.val = 7 ∧ (1000 : Int) ≤ c.exp := by
  refine ⟨cache_spec.1 [] "k" 7 1000 0 (by omega), cache_spec.2.1 _ "k" 2000 _ rfl (by decide),
    cache_spec.2.2 [("k", { val := 7, exp := 1500 })] "k" 1000 7 rfl⟩

/-- C7: when no upstream record has sale state "EndedWithSales", the
price-history aggregation returns the explicit zero-sales payload — the
query, `total_sold = 0`, an empty item list, and all aggregate price
fields absent — rather than an error. -/
theorem priceHistory_empty_spec (q : String) (items : List FindingItem)
    (h : ∀ i ∈ items, ¬sellingStateOf i = some "EndedWithSales") :
    priceHistory q items =
      { query := q, total_sold := 0, average_price := none, lowest_price := none,
        highest_price := none, median_price := none, items := [] } := by
  have hfilter : List.filter (fun i => sellingStateOf i == some "EndedWithSales") items = [] := by
    rw [List.filter_eq_nil_iff]
    intro a ha
    simpa using h a ha
  simp [priceHistory, hfilter]

/-- C7 witness: one completed listing that ended without a sale produces
the zero-sales payload. -/
theorem priceHistory_empty_witness :
    priceHistory "abba" [notSoldItem] =
      { query := "abba", total_sold := 0, average_price := none, lowest_price := none,
        highest_price := none, median_price := none, items := [] } :=
  priceHistory_empty_spec "abba" [notSoldItem] (by decide)

/-- C4: `normalizeVinyl` is a total function on raw items; `itemId`,
`title` and `url` pass through (so a missing field stays absent), a
missing `price`, `condition` or image source maps to `null`, and the
artist is the brand when it is a nonempty string, otherwise the trimmed
text before the first hyphen of the title when that is nonempty, otherwise
`null`. -/
theorem normalizeVinyl_spec (item : RawItem) :
    ((normalizeVinyl item).itemId = item.itemId) ∧
    ((normalizeVinyl item).title = item.title) ∧
    ((normalizeVinyl item).url = item.itemWebUrl) ∧
    ((normalizeVinyl item).price = item.price) ∧
    (item.condition = none → (normalizeVinyl item).condition = none) ∧
    (item.thumbnailImages = none → item.image = none → (normalizeVinyl item).image = none) ∧
    (∀ b, item.brand = some b → b ≠ "" → (normalizeVinyl item).artist = some b) ∧
    ((item.brand = none ∨ item.brand = some "") →
      ∀ t, item.title = some t → preHyphen t ≠ "" →
        (normalizeVinyl item).artist = some (preHyphen t)) ∧
    ((item.brand = none ∨ item.brand = some "") →
      (item.title = none ∨ ∃ t, item.title = some t ∧ preHyphen t = "") →
        (normalizeVinyl item).artist = none) := by
  refine ⟨rfl, rfl, rfl, rfl, ?_, ?_, ?_, ?_, ?_⟩
  · intro h; simp [normalizeVinyl, strTruthy, h]
  · intro h1 h2; simp [normalizeVinyl, jsOrStr, strTruthy, h1, h2]
  · intro b hb hbne; simp [normalizeVinyl, jsOrStr, strTruthy, hb, hbne]
  · intro hbr t ht htne
    rcases hbr with h | h <;>
      simp [normalizeVinyl, jsOrStr, strTruthy, h, ht, htne]
  · intro hbr hti
    have hb : strTruthy item.brand = none := by
      rcases hbr with h | h <;> simp [strTruthy, h]
    have ht2 : strTruthy (item.title.map preHyphen) = none := by
      rcases hti with h | ⟨t, ht, hpre⟩
      · simp [strTruthy, h]
      · simp [strTruthy, ht, hpre]
    simp [normalizeVinyl, jsOrStr, hb, ht2]

/-- C4 witness: a brandless item with a hyphenated title gets the text
before the hyphen as artist, and its missing condition stays absent. -/
theorem normalizeVinyl_spec_witness :
    (normalizeVinyl hyphenTitleItem).artist = some "Pink Floyd" ∧
    (normalizeVinyl hyphenTitleItem).condition = none := by
  constructor
  · have h := (normalizeVinyl_spec hyphenTitleItem).2.2.2.2.2.2.2.1
      (Or.inl rfl) "Pink Floyd - The Wall" rfl (by decide)
    rw [h]
    decide
  · exact (normalizeVinyl_spec hyphenTitleItem).2.2.2.2.1 rfl

/-- Accumulator form of the trending query loop. -/
theorem trendingFound_go (results : List (Except String (List RawItem)))
    (acc : List RawItem) :
    results.foldl trendStep acc = acc ++ (results.map trendGain).flatten := by
  induction results generalizing acc with
  | nil => simp
  | cons r rs ih =>
    have hstep : trendStep acc r = acc ++ trendGain r := by
      cases r <;> simp [trendStep, trendGain]
    simp [List.foldl_cons, ih, hstep, List.append_assoc]

/-- C2 counterexample: a chart-data fan-out batch of two variant queries
in which the second fetch rejects makes the whole aggregation fail — the
claim that a single failing query never fails the operation is false for
the chart-data loop. -/
theorem chart_fanout_failure_cex :
    (chartCombined [Except.ok [{ price := 10, date := some 0 }],
      Except.error "boom"]).isOk = false := rfl

/-- C2 amended: in the trending aggregation a failing query is skipped
(dropping it does not change the result) and the result is the merged,
vinyl-filtered items of the successful queries; in the chart-data
aggregation, however, the variant loop has no per-query catch, so any
failing query makes the whole aggregation fail. -/
theorem fanout_failure_isolation_amended :
    (∀ (xs ys : List (Except String (List RawItem))) (e : String),
      trendingFound (xs ++ Except.error e :: ys) = trendingFound (xs ++ ys)) ∧
    (∀ results, trendingFound results = (results.map trendGain).flatten) ∧
    (∀ (xs ys : List (Except String (List SoldRec))) (e : String),
      (chartCombined (xs ++ Except.error e :: ys)).isOk = false) := by
  refine ⟨?_, ?_, ?_⟩
  · intro xs ys e
    simp [trendingFound, trendingFound_go, trendGain, trendStep]
  · intro results
    exact trendingFound_go results []
  · intro xs ys e
    induction xs with
    | nil => rfl
    | cons x xs ih =>
      cases x with
      | error e2 => rfl
      | ok sold =>
        simp only [List.cons_append, chartCombined]
        cases hc : chartCombined (xs ++ Except.error e :: ys) with
        | error e2 => rfl
        | ok rest => rw [hc] at ih; simp [Except.isOk, Except.toBool] at ih

/-- C6: the price-history median is taken over the ascending sort of the
price series (a sorted permutation of it); for an odd count it is the
single central value of the sorted series, for an even count the
arithmetic mean of the two central values; in particular [10, 20, 30]
gives 20 and [10, 20, 30, 40] gives 25. -/
theorem median_spec (ps : List ℚ) (hne : ps ≠ []) :
    List.Sorted (· ≤ ·) (sortedPrices ps) ∧
    List.Perm (sortedPrices ps) ps ∧
    (ps.length % 2 = 1 →
      medianOf (sortedPrices ps) = (sortedPrices ps).getD (ps.length / 2) 0) ∧
    (ps.length % 2 = 0 →
      medianOf (sortedPrices ps) =
        ((sortedPrices ps).getD (ps.length / 2 - 1) 0 +
          (sortedPrices ps).getD (ps.length / 2) 0) / 2) ∧
    medianOf (sortedPrices [10, 20, 30]) = 20 ∧
    medianOf (sortedPrices [10, 20, 30, 40]) = 25 := by
  have hlen : (sortedPrices ps).length = ps.length :=
    (List.perm_insertionSort (· ≤ ·) ps).length_eq
  refine ⟨List.sorted_insertionSort (· ≤ ·) ps, List.perm_insertionSort (· ≤ ·) ps,
    ?_, ?_, ?_, ?_⟩
  · intro hodd
    unfold medianOf
    rw [hlen, if_neg (by omega)]
  · intro heven
    unfold medianOf
    rw [hlen, if_pos heven]
  · norm_num [sortedPrices, List.insertionSort, List.orderedInsert, medianOf]
  · norm_num [sortedPrices, List.insertionSort, List.orderedInsert, medianOf]

/-- C6 witness: the two concrete example series of the claim. -/
theorem median_spec_witness :
    medianOf (sortedPrices [10, 20, 30]) = 20 ∧
    medianOf (sortedPrices [10, 20, 30, 40]) = 25 :=
  ⟨(median_spec [10, 20, 30] (by decide)).2.2.2.2.1,
   (median_spec [10, 20, 30, 40] (by decide)).2.2.2.2.2⟩

/-- C1: the recommendation score's price-similarity term is unguarded.
With a zero base price it does evaluate to 0 for a candidate with a
nonzero price (via `max(0, 15 - Infinity) = 0`), but for a candidate whose
resolved price is also 0 it is `Math.max(0, 15 - (0/0)*20) = NaN`, and the
whole `recommend_score` becomes NaN whatever the random jitter — the score
is not always a non-NaN finite number as specified. -/
theorem recommend_score_nan_spec :
    priceSimTerm 5 0 = JNum.fin 0 ∧
    priceSimTerm 0 0 = JNum.nan ∧
    (∀ jitter : ℚ,
      recommendScore "" 0 [] zeroPriceCand 0 jitter = JNum.nan) := by
  refine ⟨?_, ?_, ?_⟩
  · norm_num [priceSimTerm, jdiv, jmul, jsub, jneg, jadd, jmax]
  · norm_num [priceSimTerm, jdiv, jmul, jsub, jneg, jadd, jmax]
  · intro jitter
    norm_num [recommendScore, priceSimTerm, jdiv, jmul, jsub, jneg, jadd, jmax,
      jround2, artistMatch, zeroPriceCand]

/-- The dedup pass fails (the `RangeError` of `toISOString` on an Invalid
Date propagates) whenever some record's date is invalid. -/
theorem dedupGo_error_of_invalid (l : List SoldRec) (seen : List (Int × ℚ))
    (h : ∃ r ∈ l, r.date = none) : ∃ e, dedupGo l seen = Except.error e := by
  induction l generalizing seen with
  | nil => rcases h with ⟨r, hr, _⟩; cases hr
  | cons r rs ih =>
    rcases h with ⟨r0, hr0, hdate⟩
    rcases List.mem_cons.mp hr0 with heq | hmem
    · subst heq
      exact ⟨"Invalid time value", by simp [dedupGo, hdate]⟩
    · cases hd : r.date with
      | none => exact ⟨"Invalid time value", by simp [dedupGo, hd]⟩
      | some d =>
        by_cases hm : (d, r.price) ∈ seen
        · rcases ih seen ⟨r0, hmem, hdate⟩ with ⟨e2, he2⟩
          exact ⟨e2, by simp [dedupGo, hd, hm, he2]⟩
        · rcases ih ((d, r.price) :: seen) ⟨r0, hmem, hdate⟩ with ⟨e1, he1⟩
          exact ⟨e1, by simp [dedupGo, hd, hm, he1, Except.map]⟩

/-- C9: a missing end timestamp yields an Invalid Date record, and one
retained record with an invalid date makes the whole chart-data operation
fail (the dedup key's `toISOString` throws and nothing catches it per
record, so the route's generic error handler answers) — invalid records
are not skipped individually. -/
theorem chartData_invalid_date_spec :
    (∀ (parse : String → Option Int) (i : FindingItem),
      endTimeOf i = none → jsNewDate parse (endTimeOf i) = none) ∧
    (∀ (now : Int) (combined : List SoldRec),
      (∃ r ∈ combined, r.date = none) →
      (chartData now combined).isOk = false) := by
  constructor
  · intro parse i h
    rw [h]
    rfl
  · intro now combined h
    rcases dedupGo_error_of_invalid combined [] h with ⟨e, he⟩
    simp [chartData, he, Except.map, Except.isOk, Except.toBool]

/-- C9 witness: one sold record with an invalid date fails the whole
chart-data computation. -/
theorem chartData_invalid_date_witness :
    (chartData 0 [{ price := 10, date := none }]).isOk = false :=
  chartData_invalid_date_spec.2 0 [{ price := 10, date := none }]
    ⟨{ price := 10, date := none }, List.mem_singleton.mpr rfl, rfl⟩

/-- First-seen-wins characterization of the dedup pass: a successful run
returns a sublist of its input that keeps, for each key not already seen,
exactly the first record carrying that key. -/
theorem dedupGo_filter (l : List SoldRec) (seen : List (Int × ℚ)) (out : List SoldRec)
    (h : dedupGo l seen = Except.ok out) :
    out.Sublist l ∧
    ∀ k, out.filter (fun r => decide (keyOf r = k)) =
      if keyMem k seen then [] else (l.filter (fun r => decide (keyOf r = k))).take 1 := by
  induction l generalizing seen out with
  | nil =>
    simp only [dedupGo, Except.ok.injEq] at h
    subst h
    refine ⟨List.Sublist.refl _, ?_⟩
    intro k
    cases hk : keyMem k seen <;> simp
  | cons r rs ih =>
    cases hd : r.date with
    | none => simp [dedupGo, hd] at h
    | some d =>
      simp only [dedupGo, hd] at h
      by_cases hm : (d, r.price) ∈ seen
      · rw [if_pos hm] at h
        obtain ⟨hsub, hf⟩ := ih seen out h
        refine ⟨List.Sublist.cons r hsub, ?_⟩
        intro k
        rw [hf k]
        cases hkm : keyMem k seen
        · have hpr : ¬keyOf r = k := by
            intro he
            rw [← he] at hkm
            simp [keyMem, keyOf, hd, hm] at hkm
          simp [List.filter_cons, hpr]
        · simp
      · rw [if_neg hm] at h
        cases hrec : dedupGo rs ((d, r.price) :: seen) with
        | error e => rw [hrec] at h; simp [Except.map] at h
        | ok rest =>
          rw [hrec] at h
          simp only [Except.map, Except.ok.injEq] at h
          subst h
          obtain ⟨hsub, hf⟩ := ih ((d, r.price) :: seen) rest hrec
          refine ⟨List.Sublist.cons₂ r hsub, ?_⟩
          intro k
          by_cases hk : keyOf r = k
          · subst hk
            have hrest : rest.filter (fun r2 => decide (keyOf r2 = keyOf r)) = [] := by
              rw [hf (keyOf r)]
              have : keyMem (keyOf r) ((d, r.price) :: seen) = true := by
                simp [keyMem, keyOf, hd]
              rw [if_pos this]
            have hseen : keyMem (keyOf r) seen = false := by
              simp [keyMem, keyOf, hd, hm]
            simp [List.filter_cons, hrest, hseen]
          · have hkm2 : keyMem k ((d, r.price) :: seen) = keyMem k seen := by
              rcases k with ⟨kd, kp⟩
              cases kd with
              | none => simp [keyMem]
              | some d2 =>
                simp only [keyMem, List.mem_cons, decide_eq_decide]
                constructor
                · rintro (hdp | hin)
                  · exfalso
                    apply hk
                    rw [keyOf, hd]
                    rw [Prod.mk.injEq] at hdp
                    rw [hdp.1, hdp.2]
                  · exact hin
                · exact fun hin => Or.inr hin
            have hpr : decide (keyOf r = k) = false := by
              simpa using hk
            simp only [List.filter_cons, hpr, Bool.false_eq_true, if_false]
            rw [hf k, hkm2]

/-- C8: after merging, records are deduplicated by the (timestamp, price)
pair keeping the first occurrence (the deduped list is a sublist of the
combined one whose per-key content is the first key occurrence), then
sorted descending by timestamp (a sorted permutation); each day-window
summary independently filters the same combined set, reporting count,
2-decimal average, lowest and highest, and is null for an empty window —
with the spec's example: offsets 5/35/65/95 days, prices 10/20/30/40 give
30d count 1 avg 10, 60d count 2 avg 15, 90d count 3 avg 20, and a lone
65-day-old record leaves the 30d and 60d windows null. -/
theorem chartData_spec :
    (∀ (combined0 deduped : List SoldRec), dedupGo combined0 [] = Except.ok deduped →
      deduped.Sublist combined0 ∧
      ∀ k, deduped.filter (fun r => decide (keyOf r = k)) =
        (combined0.filter (fun r => decide (keyOf r = k))).take 1) ∧
    (∀ l, List.Sorted sortRel (sortSold l) ∧ List.Perm (sortSold l) l) ∧
    chartData 0 chartExample =
      Except.ok (ChartResult.data 4
        (some { count := 1, average := 10, lowest := 10, highest := 10 })
        (some { count := 2, average := 15, lowest := 10, highest := 20 })
        (some { count := 3, average := 20, lowest := 10, highest := 30 })) ∧
    chartData 0 [{ price := 40, date := some ((-65) * msPerDay) }] =
      Except.ok (ChartResult.data 1 none none
        (some { count := 1, average := 40, lowest := 40, highest := 40 })) := by
  refine ⟨?_, ?_, ?_, ?_⟩
  · intro combined0 deduped h
    obtain ⟨hsub, hf⟩ := dedupGo_filter combined0 [] deduped h
    refine ⟨hsub, ?_⟩
    intro k
    have : keyMem k [] = false := by
      rcases k with ⟨kd, kp⟩
      cases kd <;> simp [keyMem]
    rw [hf k, this, if_neg (by simp)]
  · intro l
    exact ⟨List.sorted_insertionSort sortRel l, List.perm_insertionSort sortRel l⟩
  · norm_num [chartData, chartExample, dedupGo, Except.map, sortSold, sortRel, dateVal,
      List.insertionSort, List.orderedInsert, rangeData, daysAgo, msPerDay, makeSummary,
      round2, round_eq, keyOf, Summary.mk.injEq]
  · norm_num [chartData, dedupGo, Except.map, sortSold, sortRel, dateVal,
      List.insertionSort, List.orderedInsert, rangeData, daysAgo, msPerDay, makeSummary,
      round2, round_eq, keyOf, Summary.mk.injEq]

/-- C8 witness: deduplicating two identical records keeps exactly the
first one. -/
theorem chartData_spec_witness :
    List.Sublist [({ price := 10, date := some 0 } : SoldRec)]
      [{ price := 10, date := some 0 }, { price := 10, date := some 0 }] :=
  (chartData_spec.1 [{ price := 10, date := some 0 }, { price := 10, date := some 0 }]
    [{ price := 10, date := some 0 }] (by rfl)).1

end VinylBackend
